import Mathlib

/-
Verification of the go-mcp protocol engine (github.com/victorvbello/gomcp).

This file gives a shallow embedding, in Lean 4, of the parts of the Go source
that the specification claims talk about:

  * the JSON value model and the Go encoding/json conventions the codec relies
    on (map keys are emitted in sorted byte order, struct fields in declaration
    order),
  * BaseRequestParams.MarshalJSON / UnmarshalJSON (mcp/types/request.go),
  * the serialization path for a JSONRPCResponse carrying an EmptyResult over
    the stdio transport (mcp/types/jsonrpc.go, mcp/shared/stdio.go),
  * the request path of the protocol engine: the early capability check, the
    cancel flow with its sync.Once guard, the timeout configuration, and the
    inbound-request response path (mcp/shared/protocol.go and its second
    revision in the repository),
  * the streamable HTTP server transport: session validation and the
    initialize branch of handlePostRequest,
  * Server.onInitialize version negotiation (mcp/server/server.go),
  * the stdio framing buffer ReadBuffer.ReadMessage (mcp/shared/stdio.go),
    including the bufio.Reader fill behaviour it depends on.

Go maps with interface values are modelled two ways, matching their two roles
in the source: as parsed JSON trees (the mutual inductive Json below, objects
as ordered field lists) and, where Go structural equality of in-memory maps
matters, as functions from keys to optional values (GoMap below), so that a
nil map and an empty map stay distinguishable through the Option wrapper.
-/

/-
JSON values. Objects and arrays are separate mutual inductives rather than
nested lists so that the rendering functions below are structurally recursive
and reduce inside the kernel.
-/

mutual

inductive Json where
  | null : Json
  | boolean : Bool → Json
  | num : Int → Json
  | str : String → Json
  | arr : JsonArr → Json
  | obj : JsonObj → Json

inductive JsonArr where
  | nil : JsonArr
  | cons : Json → JsonArr → JsonArr

inductive JsonObj where
  | nil : JsonObj
  | cons : String → Json → JsonObj → JsonObj

end

/-
Lookup on a parsed JSON object, modelling msg[key] on a Go
map[string]interface\x7b\x7d obtained from json.Unmarshal. Duplicate keys do
not arise in parsed objects; the first binding wins.
-/
def jsonObjLookup (k : String) : JsonObj → Option Json
  | JsonObj.nil => none
  | JsonObj.cons k2 v rest => if k = k2 then some v else jsonObjLookup k rest

/-
A Go map[string]interface\x7b\x7d used as an in-memory value, modelled
extensionally. Option GoMap distinguishes a nil Go map (none) from a non-nil
one, which Go structural equality also distinguishes.
-/
def GoMap : Type := String → Option Json

def goMapEmpty : GoMap := fun _ => none

def goMapInsert (k : String) (v : Json) (m : GoMap) : GoMap :=
  fun q => if q = k then some v else m q

/-
delete(raw, k) on a Go map.
-/
def goMapDelete (k : String) (m : GoMap) : GoMap :=
  fun q => if q = k then none else m q

/-
mcp/types/request.go lines 75-80:
type BaseRequestParams struct \x7b
  Metadata map[string]interface\x7b\x7d `json:"_meta,omitempty"`
  AdditionalProperties map[string]interface\x7b\x7d `json:"-"`
\x7d
Metadata is kept as the JSON object it holds (an object-shaped tree), with
none for a nil map; AdditionalProperties is an in-memory map, none for nil.
-/
structure BaseRequestParams where
  Metadata : Option JsonObj
  AdditionalProperties : Option GoMap

/-
BaseRequestParams.MarshalJSON (mcp/types/request.go lines 82-94) at the level
of the raw map it builds: raw starts empty; when Metadata is non-nil,
raw["_meta"] = Metadata; then every key of AdditionalProperties other than
"_meta" is copied into raw ("_meta" inside AdditionalProperties is skipped:
the key is reserved by MCP). The function below is the pointwise value of the
resulting map; json.Marshal then serializes it losslessly, so the round trip
below composes the two map-level functions directly.
-/
def marshalBaseRequestParams (p : BaseRequestParams) : GoMap := fun q =>
  if q = "_meta" then p.Metadata.map Json.obj
  else
    match p.AdditionalProperties with
    | some a => a q
    | none => none

/-
BaseRequestParams.UnmarshalJSON (mcp/types/request.go lines 96-116): the data
is parsed into a raw map; when raw has no "_meta" key the method returns nil
at once, leaving both struct fields at their zero value (nil maps); otherwise
raw["_meta"] is re-marshalled and unmarshalled into a fresh empty map (an
error unless it is an object or JSON null; null leaves the fresh map empty),
raw loses its "_meta" entry via delete, Metadata becomes the fresh map and
AdditionalProperties becomes the remaining raw map.
-/
def unmarshalBaseRequestParams (raw : GoMap) : Except String BaseRequestParams :=
  match raw "_meta" with
  | none => Except.ok ⟨none, none⟩
  | some (Json.obj meta) => Except.ok ⟨some meta, some (goMapDelete "_meta" raw)⟩
  | some Json.null => Except.ok ⟨some JsonObj.nil, some (goMapDelete "_meta" raw)⟩
  | some _ => Except.error "error unmarshaling into metadata"

/-
A concrete non-empty AdditionalProperties map holding exampleKey ↦ "v", used
as the input that falsifies the unconditional round-trip claim.
-/
def exampleAdditional : GoMap := goMapInsert "exampleKey" (Json.str "v") goMapEmpty

/-
Byte-wise string comparison, as used by sort.Strings inside Go encoding/json
when it emits the keys of a map in increasing order. All keys in this
development are ASCII, where byte order and char-code order agree.
-/
def charListLt : List Char → List Char → Bool
  | [], [] => false
  | [], _ :: _ => true
  | _ :: _, [] => false
  | a :: as, b :: bs =>
    if a.toNat < b.toNat then true
    else if b.toNat < a.toNat then false
    else charListLt as bs

def strLt (a b : String) : Bool := charListLt a.toList b.toList

/-
Insertion sort of the fields of an object by key, modelling the sorted key
order in which Go json.Marshal emits a map. Keys are distinct in every map
marshalled here, so the order is fully determined.
-/
def insertFieldByKey (k : String) (v : Json) : JsonObj → JsonObj
  | JsonObj.nil => JsonObj.cons k v JsonObj.nil
  | JsonObj.cons k2 v2 rest =>
    if strLt k2 k then JsonObj.cons k2 v2 (insertFieldByKey k v rest)
    else JsonObj.cons k v (JsonObj.cons k2 v2 rest)

def sortFieldsByKey : JsonObj → JsonObj
  | JsonObj.nil => JsonObj.nil
  | JsonObj.cons k v rest => insertFieldByKey k v (sortFieldsByKey rest)

/-
Go encoding/json string escaping for the characters that can occur in this
development (including the default HTML escaping of angle brackets and
ampersand). Control characters other than newline, carriage return and tab do
not occur in any string marshalled here.
-/
def goEscapeChar (c : Char) : List Char :=
  if c = '"' then ['\\', '"']
  else if c = '\\' then ['\\', '\\']
  else if c = '\n' then ['\\', 'n']
  else if c = '\r' then ['\\', 'r']
  else if c = '\t' then ['\\', 't']
  else if c = '<' then ['\\', 'u', '0', '0', '3', 'c']
  else if c = '>' then ['\\', 'u', '0', '0', '3', 'e']
  else if c = '&' then ['\\', 'u', '0', '0', '2', '6']
  else [c]

def renderJsonString (s : String) : String :=
  "\"" ++ String.mk (s.toList.map goEscapeChar).flatten ++ "\""

/-
Rendering of a JSON value to the byte string Go json.Marshal produces for it.
Objects are rendered in the field order they carry: a value standing for a
marshalled Go map must therefore carry its fields pre-sorted (sortFieldsByKey
above), while a value standing for a marshalled Go struct carries them in
declaration order, which is what Go emits for structs.
-/
mutual

def renderJson : Json → String
  | Json.null => "null"
  | Json.boolean b => if b then "true" else "false"
  | Json.num n => toString n
  | Json.str s => renderJsonString s
  | Json.arr xs => "[" ++ renderJsonArr xs ++ "]"
  | Json.obj fs => "\x7b" ++ renderJsonObj fs ++ "\x7d"

def renderJsonArr : JsonArr → String
  | JsonArr.nil => ""
  | JsonArr.cons x JsonArr.nil => renderJson x
  | JsonArr.cons x rest => renderJson x ++ "," ++ renderJsonArr rest

def renderJsonObj : JsonObj → String
  | JsonObj.nil => ""
  | JsonObj.cons k v JsonObj.nil => renderJsonString k ++ ":" ++ renderJson v
  | JsonObj.cons k v rest => renderJsonString k ++ ":" ++ renderJson v ++ "," ++ renderJsonObj rest

end

/-
types.EmptyResult (mcp/types/result.go): a Result whose only field is the
embedded Meta map tagged json:"_meta,omitempty". The built-in ping handler
returns it with a nil Meta, so Go json.Marshal of the struct emits the empty
object.
-/
def emptyResultJson : Json := Json.obj JsonObj.nil

/-
NewProtocol (mcp/shared/protocol.go lines 85-88) installs the built-in ping
request handler, whose body returns (&types.EmptyResult\x7b\x7d, nil): the
result is the empty result and the error is nil.
-/
inductive ResultModel where
  | emptyResult : ResultModel
deriving DecidableEq, Repr

def pingHandlerBody : ResultModel × Option String := (ResultModel.emptyResult, none)

def resultModelJson : ResultModel → Json
  | ResultModel.emptyResult => emptyResultJson

/-
JSONRPCResponse.MarshalJSON (mcp/types/jsonrpc.go lines 301-398): the method
marshals the known fields jsonrpc and id, unmarshals them into the Go map
baseMap, stores the marshalled result value under key "result", and returns
json.Marshal(baseMap). Being a map, baseMap is emitted with its keys sorted.
-/
def jsonrpcResponseMarshal (id : Int) (result : ResultModel) : Json :=
  Json.obj (sortFieldsByKey
    (JsonObj.cons "jsonrpc" (Json.str "2.0")
      (JsonObj.cons "id" (Json.num id)
        (JsonObj.cons "result" (resultModelJson result) JsonObj.nil))))

/-
StdioSerializeMessage (mcp/shared/stdio.go lines 65-71): the message is
marshalled via JSONRPCMessageMarshalJSON (which for a JSONRPCResponse calls
its MarshalJSON) and a newline is appended.
-/
def stdioSerializePingResponse (id : Int) : String :=
  renderJson (jsonrpcResponseMarshal id (pingHandlerBody.1)) ++ "\n"

/-
Go time.Duration values, in nanoseconds.
-/
def timeMillisecond : Int := 1000000

def timeSecond : Int := 1000000000

/-
mcp/shared/protocol.go lines 13-16 (identical in the second revision):
const DEFAULT_REQUEST_TIMEOUT_MSEC = 60 * time.Millisecond
with the comment: The default request timeout, in miliseconds.
-/
def DEFAULT_REQUEST_TIMEOUT_MSEC : Int := 60 * timeMillisecond

/-
SDK and standard JSON-RPC error codes (mcp/types/error.go).
-/
def ERROR_CODE_INTERNAL_ERROR : Int := -32603

def ERROR_CODE_REQUEST_TIMEOUT : Int := -32001

def ERROR_CODE_CONNECTION_CLOSED : Int := -32000

def ERROR_CODE_SESSION_ID_NOT_FOUND : Int := -32002

def ERROR_CODE_INVALID_REQUEST : Int := -32600

/-
timeoutConfig (mcp/shared/protocol-structs.go lines 124-154) without its
runtime context fields: Timeout and MaxTotalTimeout are durations,
ResetTimeoutOnProgress the stored flag. The OnTimeout callback is modelled
separately (timeoutHandlerFire below). The context and cancel function of the
config are created only by its Start method, which spawns the goroutine that
waits on time.After(Timeout) and then calls OnTimeout; Clear cancels it.
-/
structure TimeoutConfig where
  Timeout : Int
  MaxTotalTimeout : Int
  ResetTimeoutOnProgress : Bool
deriving DecidableEq, Repr

/-
Observable actions of Protocol.Request between allocating the message ID and
returning after a successful transport send. timerStart stands for a call to
timeoutConfig.Start, the only operation that arms the timeout goroutine.
-/
inductive ReqEffect where
  | setProgressHandler : Int → ReqEffect
  | setResponseHandler : Int → ReqEffect
  | setupTimeout : Int → TimeoutConfig → ReqEffect
  | timerStart : Int → ReqEffect
  | transportSendRequest : Int → ReqEffect
deriving DecidableEq, Repr

/-
The request options consumed by the timeout code path of Protocol.Request
(mcp/shared/protocol.go lines 437-459; second revision lines 452-473).
Durations are nanoseconds; Timeout = 0 means unspecified.
-/
structure RequestOptionsModel where
  hasOnProgress : Bool
  Timeout : Int
  MaxTotalTimeout : Int
  ResetTimeoutOnProgress : Bool
deriving DecidableEq, Repr

/-
timeout := opts.Timeout; if timeout == 0, DEFAULT_REQUEST_TIMEOUT_MSEC.
-/
def requestEffectiveTimeout (o : RequestOptionsModel) : Int :=
  if o.Timeout = 0 then DEFAULT_REQUEST_TIMEOUT_MSEC else o.Timeout

/-
The effect trace of Protocol.Request from message-ID allocation to the
successful transport send, in source order (mcp/shared/protocol.go lines
348-480; second revision lines 352-489): the progress handler is registered
when opts.Onprogress is set, the response handler is registered, setupTimeout
stores the timeoutConfig carrying the timeoutHandler callback into the
timeoutInfo registry, and the request is sent. The source never invokes
timeoutConfig.Start on this path; Start is called only inside resetTimeout
(lines 99-116), which itself runs only when a progress notification arrives
for a request whose config has ResetTimeoutOnProgress set.
-/
def protocolRequestTrace (messageID : Int) (o : RequestOptionsModel) : List ReqEffect :=
  (if o.hasOnProgress then [ReqEffect.setProgressHandler messageID] else []) ++
  [ReqEffect.setResponseHandler messageID,
   ReqEffect.setupTimeout messageID
     ⟨requestEffectiveTimeout o, o.MaxTotalTimeout, o.ResetTimeoutOnProgress⟩,
   ReqEffect.transportSendRequest messageID]

/-
resetTimeout (mcp/shared/protocol.go lines 99-116): when the max-total check
passes, the config is cleared and started again. This is the only call site
of timeoutConfig.Start in the repository.
-/
def resetTimeoutTrace (messageID : Int) : List ReqEffect :=
  [ReqEffect.timerStart messageID]

/-
State touched by the cancel flow of an outbound request: the per-message
entries of the three registries, and the list of notifications/cancelled
envelopes handed to transport.Send, as (requestId, reason code) pairs.
-/
structure CancelState where
  responseHandlerSet : Bool
  progressHandlerSet : Bool
  timeoutInfoSet : Bool
  sentCancelled : List (Int × Int)
deriving DecidableEq, Repr

def initialCancelState : CancelState :=
  ⟨true, true, true, []⟩

/-
sync.Once: Do runs the body only when the guard has not fired yet.
-/
structure SyncOnce where
  done : Bool
deriving DecidableEq, Repr

def syncOnceDo (o : SyncOnce) (body : CancelState → CancelState) (s : CancelState) :
    SyncOnce × CancelState :=
  if o.done then (o, s) else (⟨true⟩, body s)

/-
The body passed to once.Do inside cancelFlow (mcp/shared/protocol.go lines
378-400; second revision lines 385-409): delete the response handler, delete
the progress handler, clean up the timeout, and send a
notifications/cancelled envelope carrying the request ID and the reason.
-/
def cancelFlowBody (messageID reasonCode : Int) (s : CancelState) : CancelState :=
  { responseHandlerSet := false
    progressHandlerSet := false
    timeoutInfoSet := false
    sentCancelled := s.sentCancelled ++ [(messageID, reasonCode)] }

/-
cancelFlow as written in the source: the statement var once sync.Once sits
INSIDE the closure body, so every invocation allocates a fresh zero-valued
guard before calling once.Do.
-/
def cancelFlow (messageID reasonCode : Int) (s : CancelState) : CancelState :=
  let once : SyncOnce := ⟨false⟩
  (syncOnceDo once (cancelFlowBody messageID reasonCode) s).2

/-
timeoutHandler (mcp/shared/protocol.go lines 442-447): the OnTimeout callback
stored in the timeoutConfig; when fired it calls cancelFlow with an McpError
of code ERROR_CODE_REQUEST_TIMEOUT; the same reason reaches the caller of
Request through the return channel.
-/
def timeoutHandlerFire (messageID : Int) (s : CancelState) : CancelState :=
  cancelFlow messageID ERROR_CODE_REQUEST_TIMEOUT s

/-
Outcomes of the early phase of Protocol.Request (mcp/shared/protocol.go lines
336-347; second revision lines 335-350), before the message ID is allocated.
There is no capability-rejection outcome because the source has no return on
that path.
-/
inductive RequestEarlyOutcome where
  | errTransportNotConnected : RequestEarlyOutcome
  | errCanceledExternally : RequestEarlyOutcome
  | proceedsToSend : RequestEarlyOutcome
deriving DecidableEq, Repr

/-
Result of the owner callback AssertCapabilityForMethod for the request being
sent: either nil or a capability error.
-/
inductive CapabilityAssert where
  | ok : CapabilityAssert
  | errMissing : CapabilityAssert
deriving DecidableEq, Repr

/-
The early phase of Protocol.Request: nil transport returns an error; when
EnforceStrictCapabilities is a true pointer the source evaluates
AssertCapabilityForMethod(request) as a bare expression statement and
discards its error value (second revision line 345, first revision line 342);
a canceled options context returns an error; otherwise control reaches the
send path.
-/
def protocolRequestEarly (transportConnected : Bool)
    (enforceStrictCapabilities : Option Bool) (capabilityAssert : CapabilityAssert)
    (optsCanceled : Bool) : RequestEarlyOutcome :=
  if transportConnected = false then RequestEarlyOutcome.errTransportNotConnected
  else
    let _discarded :=
      if enforceStrictCapabilities = some true then some capabilityAssert else none
    if optsCanceled then RequestEarlyOutcome.errCanceledExternally
    else RequestEarlyOutcome.proceedsToSend

/-
Envelopes the engine hands to transport.Send while answering one inbound
request: a JSON-RPC error response or a result response for the request ID.
resultIsNil records whether the result interface sent along is nil.
-/
inductive SentEnvelope where
  | errorResp : Int → Int → SentEnvelope
  | response : Int → Bool → SentEnvelope
deriving DecidableEq, Repr

/-
The tail of Protocol.onRequest after the handler returns (mcp/shared/
protocol.go lines 235-264; second revision lines 235-263), with every
transport.Send succeeding: when the handler context was cancelled nothing is
sent; when the handler returned a non-nil error an INTERNAL_ERROR envelope is
sent, and since the outer branch does not return on success, control then
falls through to the unconditional send of a JSONRPCResponse carrying the
handler result for the same request ID.
-/
def onRequestRespond (requestID : Int) (ctxCanceled : Bool) (handlerErr : Bool)
    (resultIsNil : Bool) : List SentEnvelope :=
  if ctxCanceled then []
  else
    (if handlerErr then [SentEnvelope.errorResp requestID ERROR_CODE_INTERNAL_ERROR] else [])
    ++ [SentEnvelope.response requestID resultIsNil]

/-
RawMessage (mcp/types/messages.go line 10) is a parsed JSON object.
IsInitializeRequest (lines 12-17): true when msg["method"] is the string
"initialize".
-/
def isInitializeRequestRaw (msg : JsonObj) : Bool :=
  match jsonObjLookup "method" msg with
  | some (Json.str m) => m = "initialize"
  | _ => false

/-
MessagesHasSomeInitializeRequest (mcp/types/messages.go lines 228-235): loops
over the slice and returns true at the first initialize request.
-/
def messagesHasSomeInitializeRequest (messages : List JsonObj) : Bool :=
  messages.any isInitializeRequestRaw

/-
Outcome of the initialize branch of handlePostRequest, streamable HTTP server
transport (streamablehttpservertransport source, lines 450-503).
-/
inductive PostInitOutcome where
  | alreadyInitialized400 : PostInitOutcome
  | onlyOneInit400 : PostInitOutcome
  | acceptedGeneratesSession : PostInitOutcome
  | notInitializeBranch : PostInitOutcome
deriving DecidableEq, Repr

/-
The initialize branch of StreamableHTTPServerTransport.handlePostRequest:
when the decoded batch contains an initialize request, an already-initialized
transport with a non-empty session ID answers 400 (Invalid Request: Server
already initialized); otherwise the source tests len(messages) > 0 and
answers 400 (Invalid Request: Only one initialization request is allowed);
only past both tests does it run s.SessionID = s.sessionIDGenerator() and set
s.initialized = true.
-/
def handlePostInitializeBranch (messages : List JsonObj) (initialized : Bool)
    (sessionID : String) : PostInitOutcome :=
  if messagesHasSomeInitializeRequest messages then
    if initialized ∧ sessionID ≠ "" then PostInitOutcome.alreadyInitialized400
    else if messages.length > 0 then PostInitOutcome.onlyOneInit400
    else PostInitOutcome.acceptedGeneratesSession
  else PostInitOutcome.notInitializeBranch

/-
An HTTP error response written through ResponseWriter.WriteJSON: the status
code passed to WriteHeader and the JSON-RPC error code inside the body.
-/
structure HttpWrite where
  status : Int
  errCode : Int
deriving DecidableEq, Repr

/-
utils.IsAlphanumeric: the string matches the anchored regular expression
with character class a-z A-Z 0-9, star quantified, so the empty string and
any string of ASCII letters and digits pass.
-/
def isAlphanumericStr (s : String) : Bool :=
  s.toList.all (fun c => c.isAlpha || c.isDigit)

/-
StreamableHTTPServerTransport.validateSession (streamable HTTP source, lines
126-194), with every WriteJSON succeeding. Returns the list of HTTP writes in
order and the boolean result of the method (true lets the caller keep
processing the request). A missing mcp-session-id header is the empty string,
as returned by req.Header.Get. Control flow mirrors the source: the
not-initialized write and the not-alphanumeric write fall through after
writing; the missing-header branch returns false; the mismatch branch writes
a response with status http.StatusFound, which is 302, and then falls through
to the final return true.
-/
def validateSession (generatorConfigured initialized : Bool)
    (transportSessionID headerSessionID : String) : List HttpWrite × Bool :=
  if generatorConfigured = false then ([], true)
  else
    let w1 : List HttpWrite :=
      if initialized = false then [⟨400, ERROR_CODE_CONNECTION_CLOSED⟩] else []
    if headerSessionID = "" then (w1 ++ [⟨400, ERROR_CODE_CONNECTION_CLOSED⟩], false)
    else
      let w2 : List HttpWrite :=
        if isAlphanumericStr headerSessionID = false then
          [⟨400, ERROR_CODE_CONNECTION_CLOSED⟩]
        else []
      let w3 : List HttpWrite :=
        if headerSessionID ≠ transportSessionID then
          [⟨302, ERROR_CODE_SESSION_ID_NOT_FOUND⟩]
        else []
      (w1 ++ w2 ++ w3, true)

/-
mcp/types/global.go (second revision) lines 25-34.
-/
def LATEST_PROTOCOL_VERSION : String := "2025-03-26"

def SUPPORTED_PROTOCOL_VERSIONS : List String :=
  [LATEST_PROTOCOL_VERSION, "2024-11-05", "2024-10-07"]

/-
The fields of types.InitializeResult that onInitialize fills and that the
version-negotiation claim mentions.
-/
structure InitializeResultModel where
  protocolVersion : String
deriving DecidableEq, Repr

/-
Server.onInitialize (mcp/server/server.go lines 208-227): the requested
version is looked up in SUPPORTED_PROTOCOL_VERSIONS; when absent the latest
version is used instead; the result carries the chosen version (capabilities,
server info and instructions are copied from server state unchanged).
-/
def onInitialize (requestedVersion : String) : InitializeResultModel :=
  let okVersion := requestedVersion ∈ SUPPORTED_PROTOCOL_VERSIONS
  let protocolVersion := if okVersion then requestedVersion else LATEST_PROTOCOL_VERSION
  ⟨protocolVersion⟩

/-
The default buffer size of a bufio.Reader, as created by bufio.NewReader.
-/
def BUFIO_DEFAULT_BUF_SIZE : Nat := 4096

/-
Index of the first newline in a char list, as searched for by
bufio.Reader.ReadSlice on behalf of ReadString.
-/
def findNewlineIdx : List Char → Option Nat
  | [] => none
  | c :: rest => if c = '\n' then some 0 else (findNewlineIdx rest).map (· + 1)

/-
reader.ReadString of a newline on a FRESH bufio.Reader built over the
bytes.Buffer holding buf, at the level of bytes: each fill moves up to 4096
bytes from the bytes.Buffer into the reader (bytes.Buffer.Read hands over
min(4096, len) bytes in one call); when the filled chunk contains a newline
the string through that newline is returned and the rest of the chunk stays
inside the reader only; when it does not and the underlying buffer is empty,
ReadString returns the accumulated data with io.EOF; when it does not and
more bytes remain, ReadSlice reports ErrBufferFull, the chunk is kept as a
fragment and filling continues. The function returns the successful line
(none standing for the io.EOF return) together with the bytes left in the
bytes.Buffer. Recursion is on a fuel bounded below by the number of fills,
which consume 4096 bytes each; the fuel-zero branch is unreachable for the
initial fuel chosen in bufioReadStringLF.
-/
def bufioReadStringLFAux : Nat → List Char → Option (List Char) × List Char
  | 0, _ => (none, [])
  | fuel + 1, buf =>
    let chunk := buf.take BUFIO_DEFAULT_BUF_SIZE
    let rest := buf.drop BUFIO_DEFAULT_BUF_SIZE
    match findNewlineIdx chunk with
    | some i => (some (chunk.take (i + 1)), rest)
    | none =>
      if rest.isEmpty then (none, [])
      else
        match bufioReadStringLFAux fuel rest with
        | (some line, rest2) => (some (chunk ++ line), rest2)
        | (none, rest2) => (none, rest2)

def bufioReadStringLF (buf : List Char) : Option (List Char) × List Char :=
  bufioReadStringLFAux (buf.length + 1) buf

/-
strings.TrimRight(line, carriage-return newline): removes every trailing
character that is a carriage return or a newline.
-/
def trimRightCRLF (l : List Char) : List Char :=
  (l.reverse.dropWhile (fun c => c = '\r' || c = '\n')).reverse

/-
ReadBuffer.ReadMessage (mcp/shared/stdio.go lines 29-58) at the framing
level: a fresh bufio.Reader is created over the current buffer contents and
ReadString consumes from it; io.EOF yields (nil, nil); the line is trimmed of
trailing carriage returns and newlines; an empty line yields (nil, nil); a
non-empty line is handed to json.Unmarshal and becomes the returned message.
The first component below is the trimmed line handed to the JSON decoder
(none when ReadMessage returns nil), the second the bytes still in the
underlying bytes.Buffer afterwards. The bytes the discarded bufio.Reader had
buffered past the returned line are in neither component: they are lost.
-/
def readMessageLine (buf : List Char) : Option (List Char) × List Char :=
  match bufioReadStringLF buf with
  | (none, rest) => (none, rest)
  | (some line, rest) =>
    let line2 := trimRightCRLF line
    if line2.isEmpty then (none, rest) else (some line2, rest)

/-
Helper lemmas about the stdio framing model.
-/

theorem findNewlineIdx_append (m1 r : List Char) (h : '\n' ∉ m1) :
    findNewlineIdx (m1 ++ '\n' :: r) = some m1.length := by
  induction m1 with
  | nil => simp [findNewlineIdx]
  | cons c rest ih =>
    simp only [List.mem_cons, not_or] at h
    simp [findNewlineIdx, Ne.symm h.1, ih h.2]

theorem take_append_newline (m1 r : List Char) :
    (m1 ++ '\n' :: r).take (m1.length + 1) = m1 ++ ['\n'] := by
  induction m1 with
  | nil => simp
  | cons c rest ih => simp [ih]

theorem dropWhile_crlf_of_not_mem (l : List Char) (hn : '\n' ∉ l) (hr : '\r' ∉ l) :
    List.dropWhile (fun c => c = '\r' || c = '\n') l = l := by
  cases l with
  | nil => rfl
  | cons a as =>
    have ha1 : a ≠ '\r' := fun hc => hr (by simp [hc])
    have ha2 : a ≠ '\n' := fun hc => hn (by simp [hc])
    simp [List.dropWhile_cons, ha1, ha2]

theorem trimRight_no_crlf (m1 : List Char) (hn : '\n' ∉ m1) (hr : '\r' ∉ m1) :
    trimRightCRLF (m1 ++ ['\n']) = m1 := by
  unfold trimRightCRLF
  rw [List.reverse_append]
  simp only [List.reverse_cons, List.reverse_nil, List.nil_append, List.singleton_append,
    List.dropWhile_cons]
  rw [if_pos (by simp)]
  rw [dropWhile_crlf_of_not_mem m1.reverse (by simpa using hn) (by simpa using hr)]
  exact List.reverse_reverse m1

theorem bufio_one_fill_line (m1 r : List Char) (h2 : '\n' ∉ m1)
    (h4 : (m1 ++ '\n' :: r).length ≤ BUFIO_DEFAULT_BUF_SIZE) :
    bufioReadStringLF (m1 ++ '\n' :: r) =
      (some (m1 ++ ['\n']), (m1 ++ '\n' :: r).drop BUFIO_DEFAULT_BUF_SIZE) := by
  rw [bufioReadStringLF, bufioReadStringLFAux]
  simp only [List.take_of_length_le h4]
  rw [findNewlineIdx_append m1 r h2]
  simp only [take_append_newline]

/-
Helper lemma for the serialized ping response: the sorted key order of the
three fields of the response map, independent of the field values.
-/

theorem sortFields_ping (v1 v2 v3 : Json) :
    sortFieldsByKey (JsonObj.cons "jsonrpc" v1
        (JsonObj.cons "id" v2 (JsonObj.cons "result" v3 JsonObj.nil))) =
      JsonObj.cons "id" v2 (JsonObj.cons "jsonrpc" v1
        (JsonObj.cons "result" v3 JsonObj.nil)) := rfl

theorem renderJsonString_id : renderJsonString "id" = "\"id\"" := rfl

theorem renderJsonString_jsonrpc : renderJsonString "jsonrpc" = "\"jsonrpc\"" := rfl

theorem renderJsonString_result : renderJsonString "result" = "\"result\"" := rfl

theorem renderJsonString_two_zero : renderJsonString "2.0" = "\"2.0\"" := rfl

/-- Claim C1. The claim says that a request whose peer never responds fails
after the per-request timeout (default 60 seconds) with error -32001, the
engine having sent a notifications/cancelled envelope. Against the code: the
default timeout constant is 60 milliseconds, not 60 seconds; and the request
path stores the timeout configuration but never invokes timeoutConfig.Start,
so no timer goroutine is armed and the OnTimeout callback can never fire on
this path (only resetTimeout, reachable solely through progress
notifications, calls Start). The last conjunct records that the stored
OnTimeout callback, if it ever fired, would indeed send exactly the
notifications/cancelled envelope with reason code -32001 that the claim
describes. -/
theorem protocol_request_never_arms_timer :
    DEFAULT_REQUEST_TIMEOUT_MSEC = 60 * timeMillisecond ∧
    DEFAULT_REQUEST_TIMEOUT_MSEC ≠ 60 * timeSecond ∧
    ReqEffect.timerStart 1 ∉ protocolRequestTrace 1 ⟨false, 50 * timeMillisecond, 0, false⟩ ∧
    (timeoutHandlerFire 1 initialCancelState).sentCancelled =
      [(1, ERROR_CODE_REQUEST_TIMEOUT)] := by
  refine ⟨rfl, by decide, by decide, rfl⟩

/-- Claim C2. The claim says the cancel path executes at most once per message
ID, two cancellations sending exactly one notifications/cancelled envelope.
Against the code: cancelFlow declares var once sync.Once inside its own body,
so every call runs the body on a fresh guard; invoking the flow twice for
message ID 1 (an external context cancel followed by the timeout reason)
sends two notifications/cancelled envelopes. The second conjunct shows that
the same two invocations through one shared sync.Once value would have sent
exactly one, which is the behaviour the guard was meant to provide. -/
theorem cancelFlow_twice_sends_two_cancellations :
    (cancelFlow 1 ERROR_CODE_REQUEST_TIMEOUT (cancelFlow 1 0 initialCancelState)).sentCancelled =
      [(1, 0), (1, ERROR_CODE_REQUEST_TIMEOUT)] ∧
    ((syncOnceDo
        (syncOnceDo ⟨false⟩ (cancelFlowBody 1 0) initialCancelState).1
        (cancelFlowBody 1 ERROR_CODE_REQUEST_TIMEOUT)
        (syncOnceDo ⟨false⟩ (cancelFlowBody 1 0) initialCancelState).2).2).sentCancelled =
      [(1, 0)] := by
  exact ⟨rfl, rfl⟩

/-- Claim C3. The claim says that with EnforceStrictCapabilities set, a failing
capability assertion makes Protocol.Request return a capability error without
sending the request. Against the code: Request evaluates
AssertCapabilityForMethod as a bare statement and discards its error, so for
every assertion outcome, including a failing one, a connected non-cancelled
request reaches the transport send, and no capability error is ever
returned. -/
theorem request_strict_capability_check_discarded :
    ∀ c : CapabilityAssert,
      protocolRequestEarly true (some true) c false = RequestEarlyOutcome.proceedsToSend := by
  intro c
  rfl

/-- Claim C4. The claim says a handler error produces exactly one response
envelope for the request ID, a JSON-RPC INTERNAL_ERROR, with no additional
result envelope. Against the code: after sending the INTERNAL_ERROR envelope
the success path of onRequest does not return, so control falls through to
the unconditional send of a JSONRPCResponse for the same ID: two envelopes
leave the engine. Shown at inbound request ID 7 with a non-cancelled context
and a handler that returned (nil, error). -/
theorem onRequest_handler_error_sends_two_envelopes :
    onRequestRespond 7 false true true =
      [SentEnvelope.errorResp 7 ERROR_CODE_INTERNAL_ERROR, SentEnvelope.response 7 true] ∧
    (onRequestRespond 7 false true true).length = 2 := by
  exact ⟨rfl, rfl⟩

/-- Claim C5, counterexample. The claim asserts decode(encode(E)) == E for
every params value. At the params value whose Metadata is a nil map and whose
AdditionalProperties holds exampleKey ↦ "v", the encoded map has no "_meta"
key, so UnmarshalJSON returns at once with both fields still nil: the
additional properties are lost and the round trip fails. -/
theorem baseRequestParams_roundtrip_fails_without_meta :
    unmarshalBaseRequestParams
        (marshalBaseRequestParams ⟨none, some exampleAdditional⟩) ≠
      Except.ok ⟨none, some exampleAdditional⟩ := by
  simp [unmarshalBaseRequestParams, marshalBaseRequestParams]

/-- Claim C5, amended. Encoding merges the additional properties beside the
reserved "_meta" key, silently dropping any "_meta" key inside them; when the
metadata map is non-nil, decoding the encoded value yields back the same
metadata and the additional properties minus any "_meta" entry (so the round
trip restores E exactly whenever the additional properties carried no "_meta"
key); when the metadata map is nil, decoding leaves both fields nil and the
additional properties are dropped entirely. -/
theorem baseRequestParams_roundtrip_with_meta (M : JsonObj) (A : GoMap) :
    unmarshalBaseRequestParams (marshalBaseRequestParams ⟨some M, some A⟩) =
      Except.ok ⟨some M, some (goMapDelete "_meta" A)⟩ := by
  have hm : marshalBaseRequestParams ⟨some M, some A⟩ "_meta" = some (Json.obj M) := by
    simp [marshalBaseRequestParams]
  have hd : goMapDelete "_meta" (marshalBaseRequestParams ⟨some M, some A⟩) =
      goMapDelete "_meta" A := by
    funext q
    by_cases hq : q = "_meta" <;> simp [goMapDelete, marshalBaseRequestParams, hq]
  unfold unmarshalBaseRequestParams
  rw [hm, hd]

/-- Claim C6. The claim says a POST batch holding an initialize request is
accepted, with a session ID generated, when the session is uninitialized and
the batch holds nothing else. Against the code: the branch guarding the
accept path tests len(messages) > 0 where only a batch with MORE than one
message should be rejected; since a batch containing an initialize request is
never empty, every such batch is rejected with 400 Invalid Request and the
session-ID generation below the test is unreachable. -/
theorem handlePost_initialize_never_accepted (messages : List JsonObj)
    (initialized : Bool) (sessionID : String)
    (h : messagesHasSomeInitializeRequest messages = true) :
    handlePostInitializeBranch messages initialized sessionID ≠
      PostInitOutcome.acceptedGeneratesSession := by
  have hlen : messages.length > 0 := by
    cases messages with
    | nil => simp [messagesHasSomeInitializeRequest] at h
    | cons m rest => simp
  unfold handlePostInitializeBranch
  rw [if_pos h]
  by_cases hc : initialized ∧ sessionID ≠ "" <;> simp [hc, hlen]

/-- Claim C6, witness. A batch holding exactly one initialize request, sent to
an uninitialized stateful transport, is not accepted. -/
theorem handlePost_initialize_never_accepted_witness :
    messagesHasSomeInitializeRequest
        [JsonObj.cons "method" (Json.str "initialize")
          (JsonObj.cons "id" (Json.num 1) JsonObj.nil)] = true ∧
    handlePostInitializeBranch
        [JsonObj.cons "method" (Json.str "initialize")
          (JsonObj.cons "id" (Json.num 1) JsonObj.nil)] false "" ≠
      PostInitOutcome.acceptedGeneratesSession :=
  ⟨by decide, handlePost_initialize_never_accepted _ _ _ (by decide)⟩

/-- Claim C7. The claim says that in stateful mode a request whose
mcp-session-id header does not match is rejected with 404 and not processed
further, and a request missing the header is rejected with 400. Against the
code: the mismatch branch of validateSession writes http.StatusFound, which
is 302, not 404, and then falls through to return true, so the request IS
processed further; the missing-header half of the claim does hold, as the
second conjunct shows. Evaluated on an initialized stateful transport with
session ID abc123, once with the non-matching header zzz999 and once with the
header absent. -/
theorem validateSession_mismatch_writes_302_and_continues :
    validateSession true true "abc123" "zzz999" =
      ([⟨302, ERROR_CODE_SESSION_ID_NOT_FOUND⟩], true) ∧
    validateSession true true "abc123" "" =
      ([⟨400, ERROR_CODE_CONNECTION_CLOSED⟩], false) := by
  exact ⟨by decide, by decide⟩

/-- Claim C8. On initialize, the result carries the requested protocol version
whenever it lies in the supported set 2025-03-26, 2024-11-05, 2024-10-07, and
carries the latest supported version 2025-03-26 otherwise. -/
theorem onInitialize_version_negotiation (v : String) :
    (v ∈ SUPPORTED_PROTOCOL_VERSIONS → (onInitialize v).protocolVersion = v) ∧
    (v ∉ SUPPORTED_PROTOCOL_VERSIONS → (onInitialize v).protocolVersion = "2025-03-26") := by
  constructor <;> intro h <;>
    simp [onInitialize, h, LATEST_PROTOCOL_VERSION]

/-- Claim C8, witness. The supported version 2024-10-07 is echoed back; the
unsupported version 1999-01-01 is answered with 2025-03-26. -/
theorem onInitialize_version_negotiation_witness :
    ("2024-10-07" ∈ SUPPORTED_PROTOCOL_VERSIONS ∧
      (onInitialize "2024-10-07").protocolVersion = "2024-10-07") ∧
    ("1999-01-01" ∉ SUPPORTED_PROTOCOL_VERSIONS ∧
      (onInitialize "1999-01-01").protocolVersion = "2025-03-26") :=
  ⟨⟨by decide, (onInitialize_version_negotiation "2024-10-07").1 (by decide)⟩,
   ⟨by decide, (onInitialize_version_negotiation "1999-01-01").2 (by decide)⟩⟩

/-- Claim C9, counterexample. The claim fixes the serialized outbound line for
the ping response with ID 1 to be exactly the byte sequence of the scenario
in the specification, which lists the jsonrpc key first. The code marshals
the response through a Go map, whose keys json.Marshal emits in sorted order,
so the bytes actually written differ from that line. -/
theorem stdio_ping_line_differs_from_spec_order :
    stdioSerializePingResponse 1 ≠
      "\x7b\"jsonrpc\":\"2.0\",\"id\":1,\"result\":\x7b\x7d\x7d\n" := by
  decide

/-- Claim C9, amended. The built-in ping handler returns an EmptyResult, which
marshals to the empty object, and for every inbound ping with ID N the
serialized outbound line is the same JSON object as in the claim but with its
keys in sorted order: the object with id N, jsonrpc 2.0 and empty result,
followed by a newline; for N = 1 this is the byte sequence with the id key
first, the jsonrpc key second and the result key last. -/
theorem stdio_ping_line_sorted_keys (n : Int) :
    stdioSerializePingResponse n =
      "\x7b\"id\":" ++ toString n ++ ",\"jsonrpc\":\"2.0\",\"result\":\x7b\x7d\x7d\n" := by
  rw [stdioSerializePingResponse, jsonrpcResponseMarshal]
  rw [show resultModelJson (pingHandlerBody.1) = Json.obj JsonObj.nil from rfl]
  rw [sortFields_ping]
  simp only [renderJson, renderJsonObj, renderJsonString_id, renderJsonString_jsonrpc,
    renderJsonString_result, renderJsonString_two_zero]
  simp only [String.append_assoc]
  rw [← String.append_assoc]
  rfl

/-- Claim C10. When the framing buffer holds two or more complete
LF-terminated messages within one 4096-byte bufio fill, ReadMessage hands
only the first line to the JSON decoder and leaves the underlying buffer
empty, the rest of the fill dying with the discarded bufio.Reader; the next
ReadMessage call therefore returns nil instead of the second message, which
is lost. Stated for a first message m1 (newline-free, without trailing
carriage returns) followed by a second LF-terminated message m2 and proved
from the fill model: the first call returns m1 and empties the buffer, and
the call after it returns none. -/
theorem readMessage_discards_second_message (m1 m2 : List Char) (h1 : m1 ≠ [])
    (h2 : '\n' ∉ m1) (h3 : '\r' ∉ m1)
    (h4 : (m1 ++ '\n' :: (m2 ++ ['\n'])).length ≤ BUFIO_DEFAULT_BUF_SIZE) :
    readMessageLine (m1 ++ '\n' :: (m2 ++ ['\n'])) = (some m1, []) ∧
    readMessageLine [] = (none, []) := by
  constructor
  · rw [readMessageLine, bufio_one_fill_line _ _ h2 h4]
    rw [List.drop_eq_nil_of_le h4]
    simp only [trimRight_no_crlf m1 h2 h3]
    simp [h1]
  · rfl

/-- Claim C10, witness. A buffer holding the two one-byte messages a and b,
each LF-terminated, yields only the first on the first call, and the call
after it yields none. -/
theorem readMessage_discards_second_message_witness :
    readMessageLine (['a'] ++ '\n' :: (['b'] ++ ['\n'])) = (some ['a'], []) ∧
    readMessageLine [] = (none, []) :=
  readMessage_discards_second_message ['a'] ['b'] (by decide) (by decide) (by decide) (by decide)
